import Mathlib

/-!
# Verification of the DazzloDocs conversion core

Shallow embedding of the format-dispatch / validation / cleanup core of the
DazzloDocs file-conversion service, together with theorems settling the
frozen claims about it.

The embedding follows `src/utils/validators.py`, `src/utils/converter.py`
and `src/utils/cleanup.py`.  File systems are modelled as association lists
from paths to sizes (validator) or contents (converter).  Python exceptions
are modelled with `Except String`; the outer `try/except` blocks of the two
public operations appear as explicit handlers over a body that may throw.
`math.floor(math.log(n, 1024))` is modelled as the exact floor logarithm
(CPython agrees with the exact value at every size exercised here, in
particular at the 1024^4 boundary).
-/

/-! ## String utilities (models of the Python primitives used by the core) -/

/-- Split a character list at every occurrence of `c` (model of `str.split`). -/
def splitCharAux (c : Char) : List Char → List Char → List (List Char)
  | [], acc => [acc.reverse]
  | x :: rest, acc =>
    if x = c then acc.reverse :: splitCharAux c rest []
    else splitCharAux c rest (x :: acc)

/-- Split a character list on a separator character. -/
def splitChar (c : Char) (l : List Char) : List (List Char) :=
  splitCharAux c l []

/-- Boolean list-prefix test. -/
def isPrefixL : List Char → List Char → Bool
  | [], _ => true
  | _ :: _, [] => false
  | a :: as, b :: bs => a = b && isPrefixL as bs

/-- Substring containment on character lists (model of Python `in`). -/
def containsL (pat : List Char) : List Char → Bool
  | [] => isPrefixL pat []
  | c :: rest => isPrefixL pat (c :: rest) || containsL pat rest

/-- `strContains s pat` models Python `pat in s`. -/
def strContains (s pat : String) : Bool :=
  containsL pat.data s.data

/-- ASCII lower-casing (model of Python `str.lower` on the ASCII names used here). -/
def strToLower (s : String) : String :=
  String.mk (s.data.map Char.toLower)

/-- Model of `os.path.basename`: the part after the last slash. -/
def baseAux : List Char → List Char → List Char
  | [], acc => acc.reverse
  | c :: rest, acc => if c = '/' then baseAux rest [] else baseAux rest (c :: acc)

/-- `os.path.basename` on strings. -/
def pyBasename (p : String) : String :=
  String.mk (baseAux p.data [])

/-- Characters after the last dot of a list, `none` when there is no dot. -/
def extAux : List Char → Option (List Char)
  | [] => none
  | c :: rest =>
    match extAux rest with
    | some e => some e
    | none => if c = '.' then some rest else none

/-- Model of `pathlib.Path(name).suffix[1:]` on a single path component:
the characters after the last dot, except that a leading dot (hidden file)
or a trailing dot yields the empty extension. -/
def pyExtChars (name : List Char) : List Char :=
  match name with
  | [] => []
  | _ :: rest =>
    match extAux rest with
    | some e => if e = [] then [] else e
    | none => []

/-- Model of `Path(file_path).suffix[1:].lower()` as used throughout the core. -/
def extOf (path : String) : String :=
  String.mk ((pyExtChars (pyBasename path).data).map Char.toLower)

/-! ## Format registry (`src/utils/validators.py`, `FileValidator.__init__`) -/

/-- The `ALLOWED_EXTENSIONS` set of `FileValidator` (as a list; membership only). -/
def allowedExtensions : List String :=
  ["jpg", "jpeg", "png", "gif", "bmp", "tiff", "tif", "webp", "ico", "svg",
   "pdf", "txt", "docx", "doc", "rtf", "md", "html", "htm",
   "xlsx", "xls", "csv",
   "pptx", "ppt",
   "json", "xml",
   "zip", "rar", "7z", "tar", "gz",
   "mp3", "wav", "flac", "aac", "ogg",
   "mp4", "avi", "mov", "wmv", "flv", "mkv", "webm",
   "py", "js", "css", "php", "java", "cpp", "c", "cs", "rb", "go", "rs",
   "log", "ini", "cfg", "conf", "yaml", "yml", "toml"]

/-- Insert a string into a sorted list (Python string comparison is
code-point lexicographic, matched by `String.lt`). -/
def insertSorted (s : String) : List String → List String
  | [] => [s]
  | t :: rest => if t < s then t :: insertSorted s rest else s :: t :: rest

/-- Insertion sort over strings (model of Python `sorted`). -/
def sortStrings : List String → List String
  | [] => []
  | s :: rest => insertSorted s (sortStrings rest)

/-- The `", ".join(sorted(ALLOWED_EXTENSIONS))` string used in the
unsupported-format message. -/
def supportedFormatsMsg : String :=
  String.intercalate ", " (sortStrings allowedExtensions.eraseDups)

def imageExts : List String :=
  ["jpg", "jpeg", "png", "gif", "bmp", "tiff", "tif", "webp", "ico", "svg"]
def documentExts : List String :=
  ["pdf", "txt", "docx", "doc", "rtf", "md", "html", "htm"]
def spreadsheetExts : List String := ["xlsx", "xls", "csv"]
def presentationExts : List String := ["pptx", "ppt"]
def dataExts : List String := ["json", "xml"]
def archiveExts : List String := ["zip", "rar", "7z", "tar", "gz"]
def audioExts : List String := ["mp3", "wav", "flac", "aac", "ogg"]
def videoExts : List String := ["mp4", "avi", "mov", "wmv", "flv", "mkv", "webm"]
def codeSizeExts : List String :=
  ["py", "js", "css", "php", "java", "cpp", "c", "cs", "rb", "go", "rs",
   "log", "ini", "cfg", "conf", "yaml", "yml", "toml"]

/-- `FileValidator._get_max_size_for_format`: the elif chain over extension
groups, returning the per-category byte ceiling from `MAX_FILE_SIZES`. -/
def maxSizeForFormat (extension : String) : Nat :=
  if imageExts.contains extension then 100 * 1024 * 1024
  else if documentExts.contains extension then 200 * 1024 * 1024
  else if spreadsheetExts.contains extension then 100 * 1024 * 1024
  else if presentationExts.contains extension then 200 * 1024 * 1024
  else if dataExts.contains extension then 50 * 1024 * 1024
  else if archiveExts.contains extension then 500 * 1024 * 1024
  else if audioExts.contains extension then 200 * 1024 * 1024
  else if videoExts.contains extension then 1000 * 1024 * 1024
  else if codeSizeExts.contains extension then 10 * 1024 * 1024
  else 500 * 1024 * 1024

/-- `FileValidator._get_file_category`. -/
def fileCategory (extension : String) : String :=
  if imageExts.contains extension then "image"
  else if documentExts.contains extension then "document"
  else if spreadsheetExts.contains extension then "spreadsheet"
  else if presentationExts.contains extension then "presentation"
  else if dataExts.contains extension then "data"
  else if archiveExts.contains extension then "archive"
  else if audioExts.contains extension then "audio"
  else if videoExts.contains extension then "video"
  else if codeSizeExts.contains extension then "code"
  else "unknown"

/-! ## Size formatting (`FileValidator._format_size`) -/

/-- The `size_names` list of `_format_size`; note there is no TB entry. -/
def sizeNames : List String := ["B", "KB", "MB", "GB"]

/-- Fueled floor logarithm base 1024 (the fuel argument only bounds the
recursion; `floorLog1024` supplies enough fuel for every input). -/
def flogAux : Nat → Nat → Nat
  | 0, _ => 0
  | fuel + 1, n => if n < 1024 then 0 else flogAux fuel (n / 1024) + 1

/-- Model of `int(math.floor(math.log(size_bytes, 1024)))` with exact reals. -/
def floorLog1024 (n : Nat) : Nat := flogAux n n

/-- `round(num/den, ...)` to an integer with Python round-half-to-even
semantics, on exact rationals (`den > 0`). -/
def roundHalfEvenDiv (num den : Nat) : Nat :=
  let q := num / den
  let r := num % den
  if 2 * r < den then q
  else if den < 2 * r then q + 1
  else if q % 2 = 0 then q else q + 1

/-- Render a value given in hundredths the way Python prints the float
`round(x, 2)` (shortest decimal form, at least one fractional digit). -/
def renderRound2 (h : Nat) : String :=
  let ip := h / 100
  let rem := h % 100
  if rem = 0 then toString ip ++ ".0"
  else if rem % 10 = 0 then toString ip ++ "." ++ toString (rem / 10)
  else if rem < 10 then toString ip ++ ".0" ++ toString rem
  else toString ip ++ "." ++ toString rem

/-- `FileValidator._format_size`: human-readable size.  For `n ≥ 1024^4` the
unit index is at least 4 and `size_names[i]` raises `IndexError`
("list index out of range"), modelled as `Except.error`. -/
def format_size (n : Nat) : Except String String :=
  if n = 0 then Except.ok "0B"
  else
    let i := floorLog1024 n
    match sizeNames.get? i with
    | none => Except.error "list index out of range"
    | some unit =>
      Except.ok (renderRound2 (roundHalfEvenDiv (100 * n) (1024 ^ i)) ++ " " ++ unit)

/-! ## Validator (`FileValidator.validate_file`, `_validate_security`) -/

/-- The `ValidationOutcome` dict: field set of the possible returns of
`validate_file` (absent keys are `none`). -/
structure VOutcome where
  valid : Bool
  error : Option String
  details : Option String
  file_size : Option Nat
  file_size_formatted : Option String
  extension : Option String
  category : Option String
  max_size : Option String
deriving DecidableEq

/-- An invalid outcome carrying only `error` and `details`. -/
def mkInvalid (err det : String) : VOutcome :=
  ⟨false, some err, some det, none, none, none, none, none⟩

/-- The valid outcome returned at the end of `validate_file`. -/
def mkValidOutcome (sz : Nat) (fmt ext cat maxFmt : String) : VOutcome :=
  ⟨true, none, none, some sz, some fmt, some ext, some cat, some maxFmt⟩

/-- The `suspicious_patterns` list of `_validate_security`. -/
def suspiciousPatterns : List String :=
  ["..", ".cmd.", ".com.", ".bat.", ".exe.", ".dll.", ".vbs.", ".js.",
   "cmd.exe", "command.com", "autoexec.bat"]

/-- `FileValidator._validate_security`: checks the basename of `file_path`
(not any separately declared filename) for a null byte and for the
suspicious patterns, case-insensitively. -/
def validate_security (file_path : String) : VOutcome :=
  if strContains (pyBasename file_path) "\x00" then
    mkInvalid "Security violation" "Filename contains invalid characters"
  else
    let filename := strToLower (pyBasename file_path)
    match suspiciousPatterns.find? (fun pat => strContains filename pat) with
    | some pat =>
      mkInvalid "Security violation" ("Filename contains suspicious pattern: " ++ pat)
    | none => ⟨true, none, none, none, none, none, none, none⟩

/-- Validator-side file system: paths with their on-disk sizes. -/
def VFS := List (String × Nat)

/-- `os.path.exists`. -/
def vfsExists (fs : VFS) (p : String) : Bool :=
  (List.lookup p fs).isSome

/-- `os.path.getsize` (only called on existing paths). -/
def vfsSize (fs : VFS) (p : String) : Nat :=
  (List.lookup p fs).getD 0

/-- The body of `validate_file` inside its outer `try`: the check chain
existence → extension → size → security, possibly raising (via
`_format_size`). -/
def validateBody (fs : VFS) (file_path : String) : Except String VOutcome :=
  if !(vfsExists fs file_path) then
    Except.ok (mkInvalid "File does not exist"
      "The uploaded file could not be found on the server.")
  else
    let file_ext := extOf file_path
    if !(allowedExtensions.contains file_ext) then
      Except.ok (mkInvalid "Unsupported file format"
        ("File format ." ++ file_ext ++ " is not supported. Supported formats: "
          ++ supportedFormatsMsg))
    else
      let file_size := vfsSize fs file_path
      let max_size := maxSizeForFormat file_ext
      if max_size < file_size then do
        let s1 ← format_size file_size
        let s2 ← format_size max_size
        pure (mkInvalid "File too large"
          ("File size (" ++ s1 ++ ") exceeds maximum allowed size (" ++ s2 ++ ")"))
      else
        let sec := validate_security file_path
        if !sec.valid then Except.ok sec
        else do
          let fmt ← format_size file_size
          let maxFmt ← format_size max_size
          pure (mkValidOutcome file_size fmt file_ext (fileCategory file_ext) maxFmt)

/-- `FileValidator.validate_file`: the body under the outer
`try/except Exception` that converts any raised error into the
"Validation error" outcome.  The `original_filename` parameter is accepted
and, exactly as in the source, never used. -/
def validate_file (fs : VFS) (file_path : String)
    (_original_filename : Option String) : VOutcome :=
  match validateBody fs file_path with
  | Except.ok r => r
  | Except.error e =>
    mkInvalid "Validation error" ("An error occurred during file validation: " ++ e)

/-! ## Conversion engine (`src/utils/converter.py`) -/

/-- JSON documents as produced and consumed by the data-format routines. -/
inductive JVal where
  | str (s : String)
  | arr (items : List JVal)
  | obj (fields : List (String × JVal))

/-- Contents of a stored file, at the level of structure the conversion
routines inspect: plain text, a parsed JSON document (the
`json.dump`/`json.load` pair is modelled as identity on parsed documents),
a PDF as its per-page extracted text, or an uninterpreted blob. -/
inductive FileContent where
  | text (s : String)
  | jdoc (j : JVal)
  | pdf (pages : List String)
  | blob

/-- Converter-side file system: paths with their contents. -/
def CFS := List (String × FileContent)

/-- Read a file (`none` models a missing path / failing `open`). -/
def cfsRead (fs : CFS) (p : String) : Option FileContent :=
  List.lookup p fs

/-- `os.path.exists` on the converter file system. -/
def cfsExists (fs : CFS) (p : String) : Bool :=
  (cfsRead fs p).isSome

/-- `open(p, "w")` followed by writes: the new content shadows any old one. -/
def cfsWrite (p : String) (c : FileContent) (fs : CFS) : CFS :=
  (p, c) :: fs

/-- The `{success, output_path | error}` dict returned by `convert_file`. -/
inductive ConvResult where
  | success (output_path : String)
  | failure (error : String)
deriving DecidableEq

/-- The conversion routine selected by the dispatch chain of
`convert_file` (one constructor per `_convert_*` target of the chain). -/
inductive Helper where
  | image | imageToPdf | pdfToImage | pdfToDocx | pdfToDoc | pdfToText
  | textToPdf | docxToPdf | docxToText | document | spreadsheet
  | spreadsheetToPdf | dataFormat | codeFormat | toPdf | fromPdf
  | csvToJson | jsonToCsv | jsonToXml | xmlToJson
deriving DecidableEq

/-- The format lists local to `convert_file` (lines 77-82 of converter.py). -/
def convImageFormats : List String :=
  ["jpg", "jpeg", "png", "gif", "bmp", "tiff", "tif", "webp", "ico", "svg"]
def convDocumentFormats : List String :=
  ["pdf", "txt", "docx", "doc", "rtf", "md", "html", "htm"]
def convSpreadsheetFormats : List String := ["xlsx", "xls", "csv"]
def convDataFormats : List String := ["json", "xml"]
def convCodeFormats : List String :=
  ["py", "js", "css", "php", "java", "cpp", "c", "cs", "rb", "go", "rs",
   "log", "ini", "cfg", "conf", "yaml", "yml", "toml"]

/-- The if/elif dispatch chain of `convert_file`, in source order; `none`
is the final `else` branch (unsupported pair). -/
def dispatch (input_ext target_format : String) : Option Helper :=
  if convImageFormats.contains input_ext && convImageFormats.contains target_format then
    some Helper.image
  else if convImageFormats.contains input_ext && target_format = "pdf" then
    some Helper.imageToPdf
  else if input_ext = "pdf" && convImageFormats.contains target_format then
    some Helper.pdfToImage
  else if input_ext = "pdf" && target_format = "docx" then some Helper.pdfToDocx
  else if input_ext = "pdf" && target_format = "doc" then some Helper.pdfToDoc
  else if input_ext = "pdf" && target_format = "txt" then some Helper.pdfToText
  else if input_ext = "txt" && target_format = "pdf" then some Helper.textToPdf
  else if input_ext = "docx" && target_format = "pdf" then some Helper.docxToPdf
  else if input_ext = "docx" && target_format = "txt" then some Helper.docxToText
  else if convDocumentFormats.contains input_ext
      && convDocumentFormats.contains target_format then some Helper.document
  else if convSpreadsheetFormats.contains input_ext
      && convSpreadsheetFormats.contains target_format then some Helper.spreadsheet
  else if convSpreadsheetFormats.contains input_ext && target_format = "pdf" then
    some Helper.spreadsheetToPdf
  else if convDataFormats.contains input_ext
      && convDataFormats.contains target_format then some Helper.dataFormat
  else if convCodeFormats.contains input_ext
      && convCodeFormats.contains target_format then some Helper.codeFormat
  else if convDocumentFormats.contains input_ext && target_format = "pdf" then
    some Helper.toPdf
  else if input_ext = "pdf" && convDocumentFormats.contains target_format then
    some Helper.fromPdf
  else if input_ext = "csv" && target_format = "json" then some Helper.csvToJson
  else if input_ext = "json" && target_format = "csv" then some Helper.jsonToCsv
  else if input_ext = "json" && target_format = "xml" then some Helper.jsonToXml
  else if input_ext = "xml" && target_format = "json" then some Helper.xmlToJson
  else none

/-! ### CSV reading and writing (`csv.DictReader` / `csv.DictWriter`) -/

/-- Strip one trailing carriage return (text-mode universal newlines). -/
def stripCR (l : List Char) : List Char :=
  match l.reverse with
  | '\r' :: rest => rest.reverse
  | _ => l

/-- One line parsed by `csv.reader`: a blank line yields the empty record,
otherwise the comma-separated fields.  (No field here ever contains a quote
character, so quoted-field parsing is not exercised.) -/
def csvParseLine (l : List Char) : List String :=
  if l = [] then [] else (splitChar ',' l).map String.mk

/-- `csv.DictReader`: first row gives the field names, each later non-blank
row is zipped with them into a record (rows here always match the header
width, so `restkey`/`restval` handling is not exercised). -/
def dictReadRows (content : String) : List (List (String × String)) :=
  match (splitChar '\n' content.data).map (fun l => csvParseLine (stripCR l)) with
  | [] => []
  | header :: rest =>
    (rest.filter (fun r => r ≠ [])).map (fun r => header.zip r)

/-- Double every quote character (csv quoting of embedded quotes). -/
def dupQuotes : List Char → List Char
  | [] => []
  | c :: rest => if c = '\x22' then c :: c :: dupQuotes rest else c :: dupQuotes rest

/-- csv `QUOTE_MINIMAL`: quote a cell only when it contains a delimiter,
quote, or line break. -/
def csvQuote (s : String) : String :=
  if strContains s "," || strContains s "\x22" || strContains s "\n"
      || strContains s "\r" then
    "\x22" ++ String.mk (dupQuotes s.data) ++ "\x22"
  else s

/-- `str()` applied by the csv writer to each cell value.  String values
(the only values `DictReader` produces and the only ones exercised in this
development) render as themselves; `None` (absent key, `restval`) is
rendered by the csv module as the empty string; container values are not
modelled exactly. -/
def renderCell : JVal → String
  | JVal.str s => s
  | JVal.arr _ => "[]"
  | JVal.obj _ => "\x7b\x7d"

/-- One output row of `csv.DictWriter.writerow`: the cells in field-name
order (missing keys become the empty `restval`), comma-joined, with the
`\r\n` line terminator. -/
def rowLine (fieldnames : List String) (row : List (String × JVal)) : String :=
  String.intercalate ","
    (fieldnames.map (fun f => csvQuote (renderCell ((List.lookup f row).getD (JVal.str "")))))
    ++ "\r\n"

/-- `csv.DictWriter.writerows` over already-written content `acc`:
processes rows in order; a row that is not a mapping, or that contains a
field not in `fieldnames`, raises (`extrasaction="raise"`), leaving the
rows written so far in the file.  Returns the final file content and
whether all rows were written. -/
def writeRows (fieldnames : List String) : String → List JVal → String × Bool
  | acc, [] => (acc, true)
  | acc, JVal.obj kvs :: rest =>
    if kvs.all (fun kv => fieldnames.contains kv.1) then
      writeRows fieldnames (acc ++ rowLine fieldnames kvs) rest
    else (acc, false)
  | acc, _ :: _ => (acc, false)

/-- `FileConverter._convert_csv_to_json`: read the CSV, build the list of
records, and write it as a JSON array of objects (field values kept as
strings).  Any error (e.g. unreadable input) is caught and yields `False`
with no output written. -/
def convert_csv_to_json (input_path output_path : String) (fs : CFS) :
    (Except String Bool) × CFS :=
  match cfsRead fs input_path with
  | some (FileContent.text content) =>
    let data := dictReadRows content
    (Except.ok true,
     cfsWrite output_path
       (FileContent.jdoc (JVal.arr (data.map (fun row =>
         JVal.obj (row.map (fun kv => (kv.1, JVal.str kv.2))))))) fs)
  | _ => (Except.ok false, fs)

/-- `FileConverter._convert_json_to_csv`: for a nonempty JSON array whose
first element is an object, write the header (the first object's keys) and
then the rows; a later row with a field outside the header raises a
`ValueError` that the routine catches, returning `False` and leaving the
partially written file at `output_path`.  A non-list or empty document, or
a non-object first element, yields `False` before the output is opened. -/
def convert_json_to_csv (input_path output_path : String) (fs : CFS) :
    (Except String Bool) × CFS :=
  match cfsRead fs input_path with
  | some (FileContent.jdoc (JVal.arr (first :: rest))) =>
    match first with
    | JVal.obj kvs =>
      let fieldnames := kvs.map Prod.fst
      let header := String.intercalate "," (fieldnames.map csvQuote) ++ "\r\n"
      let out := writeRows fieldnames header (JVal.obj kvs :: rest)
      (Except.ok out.2, cfsWrite output_path (FileContent.text out.1) fs)
    | _ => (Except.ok false, fs)
  | _ => (Except.ok false, fs)

/-! ### PDF to text (`FileConverter._convert_pdf_to_text`) -/

/-- Capability flags resolved in `FileConverter.__init__`. -/
structure Caps where
  pil : Bool
  pymupdf : Bool
  reportlab : Bool
  docx : Bool
deriving DecidableEq

/-- The page loop of `_convert_pdf_to_text`: append each page's extracted
text, inserting `"\n\n"` after every page but the last. -/
def pdfConcat : List String → String
  | [] => ""
  | [p] => p
  | p :: q :: rest => p ++ "\n\n" ++ pdfConcat (q :: rest)

/-- `FileConverter._convert_pdf_to_text`: requires PyMuPDF; concatenates
the page texts with a blank-line separator and writes the result.  Any
error opening the input is caught and yields `False`. -/
def convert_pdf_to_text (caps : Caps) (input_path output_path : String) (fs : CFS) :
    (Except String Bool) × CFS :=
  if caps.pymupdf then
    match cfsRead fs input_path with
    | some (FileContent.pdf pages) =>
      (Except.ok true, cfsWrite output_path (FileContent.text (pdfConcat pages)) fs)
    | _ => (Except.ok false, fs)
  else (Except.ok false, fs)

/-! ### The engine -/

/-- Run the routine selected by the dispatch chain.  The routines the
claims depend on are embedded concretely; the remaining ones are an
environment parameter: an arbitrary state transformer that may succeed,
fail, or raise. -/
def runHelper (caps : Caps)
    (env : Helper → String → String → CFS → (Except String Bool) × CFS)
    (h : Helper) (input_path output_path : String) (fs : CFS) :
    (Except String Bool) × CFS :=
  match h with
  | Helper.pdfToText => convert_pdf_to_text caps input_path output_path fs
  | Helper.csvToJson => convert_csv_to_json input_path output_path fs
  | Helper.jsonToCsv => convert_json_to_csv input_path output_path fs
  | other => env other input_path output_path fs

/-- The body of `convert_file` inside its outer `try`: existence check,
dispatch, run the routine, and map its boolean to the result dict; a raise
from the routine propagates. -/
def convertBody (caps : Caps)
    (env : Helper → String → String → CFS → (Except String Bool) × CFS)
    (fs : CFS) (input_path output_path target_format : String) :
    (Except String ConvResult) × CFS :=
  if !(cfsExists fs input_path) then
    (Except.ok (ConvResult.failure "Input file not found"), fs)
  else
    let input_ext := extOf input_path
    let target := strToLower target_format
    match dispatch input_ext target with
    | none =>
      (Except.ok (ConvResult.failure
        ("Conversion from " ++ input_ext ++ " to " ++ target ++ " not supported")), fs)
    | some h =>
      match runHelper caps env h input_path output_path fs with
      | (Except.ok true, fs1) => (Except.ok (ConvResult.success output_path), fs1)
      | (Except.ok false, fs1) => (Except.ok (ConvResult.failure "Conversion failed"), fs1)
      | (Except.error e, fs1) => (Except.error e, fs1)

/-- `FileConverter.convert_file`: the body under the outer
`try/except Exception` that converts any raised error into the
"Conversion error" result. -/
def convert_file (caps : Caps)
    (env : Helper → String → String → CFS → (Except String Bool) × CFS)
    (fs : CFS) (input_path output_path target_format : String) :
    ConvResult × CFS :=
  match convertBody caps env fs input_path output_path target_format with
  | (Except.ok r, fs1) => (r, fs1)
  | (Except.error e, fs1) => (ConvResult.failure ("Conversion error: " ++ e), fs1)

/-- An environment in which every routine not embedded concretely reports
plain failure without touching the file system (all optional libraries
absent); used to instantiate closed statements. -/
def envNone : Helper → String → String → CFS → (Except String Bool) × CFS :=
  fun _ _ _ fs => (Except.ok false, fs)

/-- All capability flags set (the libraries are installed). -/
def capsAll : Caps := ⟨true, true, true, true⟩

/-! ## Retention sweeper (`src/utils/cleanup.py`, `CleanupManager.cleanup_now`) -/

/-- A stored file as the sweeper sees it: name, last-modified time, whether
`os.path.getmtime` succeeds (the file still exists when statted), and
whether `os.remove` succeeds. -/
structure SwFile where
  name : String
  mtime : Int
  statOk : Bool
  delOk : Bool
deriving DecidableEq

/-- A storage folder: whether `os.path.exists(folder)` holds, and its files. -/
structure SwFolder where
  present : Bool
  files : List SwFile
deriving DecidableEq

/-- The age test of the sweep: `current_time - getmtime > retention`. -/
def fileExpired (now retention : Int) (f : SwFile) : Bool :=
  decide (retention < now - f.mtime)

/-- The per-folder file loop of `cleanup_now`: an `OSError` from `getmtime`
skips the file; an expired file is deleted best-effort, counted only when
the deletion succeeds; a failed deletion is logged and the loop continues. -/
def sweepFiles (now retention : Int) : List SwFile → Nat × List SwFile
  | [] => (0, [])
  | f :: rest =>
    let r := sweepFiles now retention rest
    if !f.statOk then (r.1, f :: r.2)
    else if fileExpired now retention f then
      if f.delOk then (r.1 + 1, r.2) else (r.1, f :: r.2)
    else (r.1, f :: r.2)

/-- One folder of the sweep: skipped entirely when the folder is absent. -/
def sweepFolder (now retention : Int) (fo : SwFolder) : Nat × SwFolder :=
  if fo.present then
    let r := sweepFiles now retention fo.files
    (r.1, ⟨fo.present, r.2⟩)
  else (0, fo)

/-- `CleanupManager.cleanup_now`: sweep the storage folders (the source
iterates the upload and converted folders) and return the number of files
deleted. -/
def cleanup_now (now retention : Int) : List SwFolder → Nat × List SwFolder
  | [] => (0, [])
  | fo :: rest =>
    let r1 := sweepFolder now retention fo
    let r2 := cleanup_now now retention rest
    (r1.1 + r2.1, r1.2 :: r2.2)

/-! ## Concrete inputs used by the closed statements -/

/-- A stored zip archive (for the unsupported-pair claim). -/
def fsZip : CFS := [("upload/input.zip", FileContent.blob)]

/-- A CSV file with header `a,b` and one data row `1,2`. -/
def fsCsvRound : CFS := [("upload/in.csv", FileContent.text "a,b\n1,2")]

/-- A JSON array whose second record has a field absent from the first
record's keys (triggers the partial-output failure of JSON→CSV). -/
def fsJsonBad : CFS :=
  [("upload/in.json",
    FileContent.jdoc (JVal.arr
      [JVal.obj [("a", JVal.str "1")], JVal.obj [("b", JVal.str "2")]]))]

/-- A stored file whose path is a traversal path; 5 bytes on disk. -/
def fsTraversal : VFS := [("../../etc/passwd.txt", 5)]

/-- A stored text file of exactly 1 TiB. -/
def fsHuge : VFS := [("upload/huge.txt", 1024 ^ 4)]

/-- Text files at the 200 MB document ceiling and one byte over it. -/
def fsAtCeiling : VFS := [("upload/doc.txt", 209715200)]
def fsOverCeiling : VFS := [("upload/doc.txt", 209715201)]

/-- Two storage folders: one expired file (age 10000), one fresh file
(age 50), retention threshold 100. -/
def demoFolders : List SwFolder :=
  [⟨true, [⟨"old.pdf", 0, true, true⟩, ⟨"new.pdf", 9950, true, true⟩]⟩,
   ⟨true, []⟩]

/-- A code file one byte over the 10 MB code ceiling. -/
def fsPyOver : VFS := [("upload/big.py", 10485761)]

/-! ## Helper lemmas -/

/-- `validate_file` returns the body's outcome when the body does not raise. -/
theorem validate_file_of_ok {fs : VFS} {p : String} {orig : Option String} {r : VOutcome}
    (h : validateBody fs p = Except.ok r) : validate_file fs p orig = r := by
  simp [validate_file, h]

/-- `validate_file` maps a raised error to the "Validation error" outcome. -/
theorem validate_file_of_error {fs : VFS} {p : String} {orig : Option String} {e : String}
    (h : validateBody fs p = Except.error e) :
    validate_file fs p orig
      = mkInvalid "Validation error" ("An error occurred during file validation: " ++ e) := by
  simp [validate_file, h]

/-- Missing file: the body reports the not-found outcome. -/
theorem validateBody_not_exists {fs : VFS} {p : String}
    (h : vfsExists fs p = false) :
    validateBody fs p = Except.ok (mkInvalid "File does not exist"
      "The uploaded file could not be found on the server.") := by
  simp [validateBody, h]

/-- Extension outside the allow-list: the body reports the
unsupported-format outcome. -/
theorem validateBody_bad_ext {fs : VFS} {p : String}
    (hex : vfsExists fs p = true)
    (hal : allowedExtensions.contains (extOf p) = false) :
    validateBody fs p = Except.ok (mkInvalid "Unsupported file format"
      ("File format ." ++ extOf p ++ " is not supported. Supported formats: "
        ++ supportedFormatsMsg)) := by
  have hal2 : extOf p ∉ allowedExtensions := by simpa using hal
  simp [validateBody, hex, hal2]

/-- Oversized file whose size strings format without raising: the body
reports the too-large outcome. -/
theorem validateBody_too_large {fs : VFS} {p : String} {s1 s2 : String}
    (hex : vfsExists fs p = true)
    (hal : allowedExtensions.contains (extOf p) = true)
    (hlt : maxSizeForFormat (extOf p) < vfsSize fs p)
    (h1 : format_size (vfsSize fs p) = Except.ok s1)
    (h2 : format_size (maxSizeForFormat (extOf p)) = Except.ok s2) :
    validateBody fs p = Except.ok (mkInvalid "File too large"
      ("File size (" ++ s1 ++ ") exceeds maximum allowed size (" ++ s2 ++ ")")) := by
  have hal2 : extOf p ∈ allowedExtensions := by simpa using hal
  simp [validateBody, hex, hal2, hlt, h1, h2, Except.map, Bind.bind, Except.bind,
    Pure.pure, Except.pure]

/-- Oversized file whose size string raises: the raise propagates out of
the body. -/
theorem validateBody_too_large_raise {fs : VFS} {p : String} {e : String}
    (hex : vfsExists fs p = true)
    (hal : allowedExtensions.contains (extOf p) = true)
    (hlt : maxSizeForFormat (extOf p) < vfsSize fs p)
    (h1 : format_size (vfsSize fs p) = Except.error e) :
    validateBody fs p = Except.error e := by
  have hal2 : extOf p ∈ allowedExtensions := by simpa using hal
  simp [validateBody, hex, hal2, hlt, h1, Except.map, Bind.bind, Except.bind]

/-- Failed security check: the body returns the security outcome. -/
theorem validateBody_security {fs : VFS} {p : String}
    (hex : vfsExists fs p = true)
    (hal : allowedExtensions.contains (extOf p) = true)
    (hle : vfsSize fs p ≤ maxSizeForFormat (extOf p))
    (hsec : (validate_security p).valid = false) :
    validateBody fs p = Except.ok (validate_security p) := by
  have hal2 : extOf p ∈ allowedExtensions := by simpa using hal
  simp [validateBody, hex, hal2, Nat.not_lt.2 hle, hsec]

/-- All checks pass: the body returns the valid outcome. -/
theorem validateBody_success {fs : VFS} {p : String} {s1 s2 : String}
    (hex : vfsExists fs p = true)
    (hal : allowedExtensions.contains (extOf p) = true)
    (hle : vfsSize fs p ≤ maxSizeForFormat (extOf p))
    (hsec : (validate_security p).valid = true)
    (h1 : format_size (vfsSize fs p) = Except.ok s1)
    (h2 : format_size (maxSizeForFormat (extOf p)) = Except.ok s2) :
    validateBody fs p = Except.ok
      (mkValidOutcome (vfsSize fs p) s1 (extOf p) (fileCategory (extOf p)) s2) := by
  have hal2 : extOf p ∈ allowedExtensions := by simpa using hal
  simp [validateBody, hex, hal2, Nat.not_lt.2 hle, hsec, h1, h2,
    Except.map, Bind.bind, Except.bind, Pure.pure, Except.pure]

/-- Fueled floor-log lower bound. -/
theorem flogAux_ge (k : Nat) : ∀ fuel n : Nat, 1024 ^ k ≤ n → k ≤ fuel →
    k ≤ flogAux fuel n := by
  induction k with
  | zero => intro fuel n _ _; exact Nat.zero_le _
  | succ j ih =>
    intro fuel n hn hf
    obtain ⟨f, rfl⟩ : ∃ f, fuel = f + 1 :=
      ⟨fuel - 1, (Nat.succ_pred_eq_of_pos (Nat.lt_of_lt_of_le (Nat.succ_pos j) hf)).symm⟩
    have h1024 : 1024 ≤ n := by
      calc 1024 = 1024 ^ 1 := (pow_one 1024).symm
        _ ≤ 1024 ^ (j + 1) := Nat.pow_le_pow_right (by norm_num) (Nat.succ_le_succ (Nat.zero_le j))
        _ ≤ n := hn
    have hdiv : 1024 ^ j ≤ n / 1024 := by
      rw [Nat.le_div_iff_mul_le (by norm_num : 0 < 1024)]
      calc 1024 ^ j * 1024 = 1024 ^ (j + 1) := (pow_succ 1024 j).symm
        _ ≤ n := hn
    have := ih f (n / 1024) hdiv (Nat.le_of_succ_le_succ hf)
    have hstep : flogAux (f + 1) n = flogAux f (n / 1024) + 1 := by
      simp [flogAux, Nat.not_lt.2 h1024]
    omega

/-- Fueled floor-log upper bound. -/
theorem flogAux_le : ∀ fuel k n : Nat, n < 1024 ^ (k + 1) → flogAux fuel n ≤ k := by
  intro fuel
  induction fuel with
  | zero => intro k n _; simp [flogAux]
  | succ f ih =>
    intro k n hn
    by_cases hs : n < 1024
    · simp [flogAux, hs]
    · cases k with
      | zero =>
        exact absurd (Nat.lt_of_lt_of_le hn (by norm_num)) hs
      | succ j =>
        have hdiv : n / 1024 < 1024 ^ (j + 1) := by
          rw [Nat.div_lt_iff_lt_mul (by norm_num : 0 < 1024)]
          calc n < 1024 ^ (j + 1 + 1) := hn
            _ = 1024 ^ (j + 1) * 1024 := pow_succ 1024 (j + 1)
        have := ih j (n / 1024) hdiv
        have hstep : flogAux (f + 1) n = flogAux f (n / 1024) + 1 := by
          simp [flogAux, hs]
        omega

/-- Sizes of at least 1 TiB land past the end of `size_names`. -/
theorem floorLog1024_ge_four {n : Nat} (h : 1024 ^ 4 ≤ n) : 4 ≤ floorLog1024 n :=
  flogAux_ge 4 n n h (le_trans (by norm_num) h)

/-- Sizes below 1 TiB use one of the four listed units. -/
theorem floorLog1024_le_three {n : Nat} (h : n < 1024 ^ 4) : floorLog1024 n ≤ 3 :=
  flogAux_le n 3 n h

/-- `_format_size` raises `IndexError` at 1 TiB and beyond. -/
theorem format_size_huge {n : Nat} (h : 1024 ^ 4 ≤ n) :
    format_size n = Except.error "list index out of range" := by
  have hne : n ≠ 0 := by positivity
  have hlen : sizeNames.length ≤ floorLog1024 n := floorLog1024_ge_four h
  have hnone : sizeNames[floorLog1024 n]? = none := List.getElem?_eq_none hlen
  simp [format_size, hne, hnone]

/-- `_format_size` succeeds below 1 TiB. -/
theorem format_size_ok {n : Nat} (h : n < 1024 ^ 4) :
    ∃ s, format_size n = Except.ok s := by
  by_cases hz : n = 0
  · exact ⟨"0B", by simp [format_size, hz]⟩
  · have hlt : floorLog1024 n < sizeNames.length :=
      Nat.lt_of_le_of_lt (floorLog1024_le_three h) (by norm_num [sizeNames])
    have hu : sizeNames[floorLog1024 n]? = some (sizeNames[floorLog1024 n]) :=
      List.getElem?_eq_getElem hlt
    exact ⟨renderRound2 (roundHalfEvenDiv (100 * n) (1024 ^ floorLog1024 n)) ++ " "
      ++ sizeNames[floorLog1024 n], by simp [format_size, hz, hu]⟩

/-- Every category ceiling is at most the 1000 MB video ceiling. -/
theorem maxSizeForFormat_le (extension : String) :
    maxSizeForFormat extension ≤ 1000 * 1024 * 1024 := by
  unfold maxSizeForFormat
  repeat' split
  all_goals norm_num

/-- Every category ceiling is below 1 TiB, so the ceiling always formats. -/
theorem maxSizeForFormat_lt_tib (extension : String) :
    maxSizeForFormat extension < 1024 ^ 4 :=
  Nat.lt_of_le_of_lt (maxSizeForFormat_le extension) (by norm_num)

/-- A file kept by the sweep is exactly one that is inaccessible, fresh, or
undeletable; the count is the number of the others. -/
theorem sweepFiles_eq (now retention : Int) (l : List SwFile) :
    sweepFiles now retention l
      = (l.countP (fun f => f.statOk && fileExpired now retention f && f.delOk),
         l.filter (fun f => !(f.statOk && fileExpired now retention f && f.delOk))) := by
  induction l with
  | nil => simp [sweepFiles]
  | cons f rest ih =>
    by_cases hs : f.statOk <;> by_cases he : fileExpired now retention f <;>
      by_cases hd : f.delOk <;>
      simp [sweepFiles, ih, hs, he, hd, List.countP_cons, List.filter_cons]

/-- Folder-level form of `sweepFiles_eq`. -/
theorem sweepFolder_eq (now retention : Int) (fo : SwFolder) :
    sweepFolder now retention fo
      = (if fo.present
           then fo.files.countP (fun f => f.statOk && fileExpired now retention f && f.delOk)
           else 0,
         if fo.present
           then ⟨fo.present,
             fo.files.filter (fun f => !(f.statOk && fileExpired now retention f && f.delOk))⟩
           else fo) := by
  by_cases hp : fo.present <;> simp [sweepFolder, sweepFiles_eq, hp]

/-- `String.intercalate.go` distributes over a fixed left part of the
accumulator. -/
theorem intercalate_go_append (sep : String) :
    ∀ (l : List String) (x y : String),
      String.intercalate.go (x ++ y) sep l = x ++ String.intercalate.go y sep l := by
  intro l
  induction l with
  | nil => intro x y; rfl
  | cons a rest ih =>
    intro x y
    show String.intercalate.go (x ++ y ++ sep ++ a) sep rest
      = x ++ String.intercalate.go (y ++ sep ++ a) sep rest
    rw [String.append_assoc x y sep, String.append_assoc x (y ++ sep) a]
    exact ih x (y ++ sep ++ a)

/-- The page loop of `_convert_pdf_to_text` joins the page texts with the
blank-line separator. -/
theorem pdfConcat_eq_intercalate :
    ∀ pages : List String, pdfConcat pages = String.intercalate "\n\n" pages := by
  intro pages
  match pages with
  | [] => rfl
  | [p] => rfl
  | p :: q :: rest =>
    have ih := pdfConcat_eq_intercalate (q :: rest)
    show p ++ "\n\n" ++ pdfConcat (q :: rest) = String.intercalate.go p "\n\n" (q :: rest)
    rw [ih]
    show p ++ "\n\n" ++ String.intercalate.go q "\n\n" rest
      = String.intercalate.go (p ++ "\n\n" ++ q) "\n\n" rest
    rw [intercalate_go_append "\n\n" rest (p ++ "\n\n") q]

/-! ## The claims -/

/-- C1: for every input whose (source extension, target extension) pair
matches no dispatch rule of `convert_file` — for example `.zip` to `.mp3`
— the engine returns the failure dict with reason
"Conversion from X to Y not supported", runs no conversion routine and no
copy fallback, and leaves the file system (in particular the output path)
unchanged. -/
theorem convert_unsupported_pair_no_output (caps : Caps)
    (env : Helper → String → String → CFS → (Except String Bool) × CFS)
    (fs : CFS) (input_path output_path target_format : String)
    (hex : cfsExists fs input_path = true)
    (hdisp : dispatch (extOf input_path) (strToLower target_format) = none) :
    convert_file caps env fs input_path output_path target_format
      = (ConvResult.failure ("Conversion from " ++ extOf input_path ++ " to "
          ++ strToLower target_format ++ " not supported"), fs) := by
  simp [convert_file, convertBody, hex, hdisp]

/-- Witness for C1: converting a stored `.zip` to `.mp3` fails with the
unsupported-pair reason and writes nothing at the output path. -/
theorem convert_unsupported_pair_no_output_case :
    cfsRead fsZip "conv/out.mp3" = none
    ∧ convert_file capsAll envNone fsZip "upload/input.zip" "conv/out.mp3" "mp3"
        = (ConvResult.failure "Conversion from zip to mp3 not supported", fsZip) := by
  refine ⟨rfl, ?_⟩
  exact convert_unsupported_pair_no_output capsAll envNone fsZip
    "upload/input.zip" "conv/out.mp3" "mp3" rfl rfl

/-- C2 counterexample: a `convert_file` call that returns `Failure` while a
partially written (header plus first row only) output file remains at the
output path — nothing deletes it before the failure is returned. -/
theorem convert_failure_partial_output_cex :
    cfsRead fsJsonBad "conv/out.csv" = none
    ∧ (convert_file capsAll envNone fsJsonBad "upload/in.json" "conv/out.csv" "csv").1
        = ConvResult.failure "Conversion failed"
    ∧ cfsRead (convert_file capsAll envNone fsJsonBad
        "upload/in.json" "conv/out.csv" "csv").2 "conv/out.csv"
        = some (FileContent.text "a\r\n1\r\n") :=
  ⟨rfl, rfl, rfl⟩

/-- C2 (amended): on `Failure` the engine itself deletes nothing: for a
JSON array whose second record carries a field absent from the first
record's keys, JSON→CSV conversion returns
`Failure("Conversion failed")` and the partially written output — header
and first row — remains at the output path. -/
theorem convert_json_to_csv_failure_leaves_partial (caps : Caps)
    (env : Helper → String → String → CFS → (Except String Bool) × CFS)
    (fs : CFS) (input_path output_path x y : String)
    (hext : extOf input_path = "json")
    (hin : cfsRead fs input_path = some (FileContent.jdoc (JVal.arr
        [JVal.obj [("a", JVal.str x)], JVal.obj [("b", JVal.str y)]]))) :
    convert_file caps env fs input_path output_path "csv"
      = (ConvResult.failure "Conversion failed",
         cfsWrite output_path (FileContent.text ("a\r\n" ++ csvQuote x ++ "\r\n")) fs) := by
  have hex : cfsExists fs input_path = true := by simp [cfsExists, hin]
  have hdisp : dispatch (extOf input_path) (strToLower "csv") = some Helper.jsonToCsv := by
    rw [hext]; rfl
  simp only [convert_file, convertBody, hex, Bool.not_true, Bool.false_eq_true,
    if_false, hdisp, runHelper, convert_json_to_csv, hin]
  rfl

/-- Witness for C2's amended claim at a concrete input. -/
theorem convert_json_to_csv_failure_leaves_partial_case :
    convert_file capsAll envNone
        [("u/rows.json", FileContent.jdoc (JVal.arr
          [JVal.obj [("a", JVal.str "1")], JVal.obj [("b", JVal.str "2")]]))]
        "u/rows.json" "c/rows.csv" "csv"
      = (ConvResult.failure "Conversion failed",
         cfsWrite "c/rows.csv" (FileContent.text ("a\r\n" ++ csvQuote "1" ++ "\r\n"))
           [("u/rows.json", FileContent.jdoc (JVal.arr
             [JVal.obj [("a", JVal.str "1")], JVal.obj [("b", JVal.str "2")]]))]) :=
  convert_json_to_csv_failure_leaves_partial capsAll envNone _
    "u/rows.json" "c/rows.csv" "1" "2" rfl rfl

/-- C3: the code accepts the traversal filename the claim says it must
reject: with the stored path (and declared filename)
`"../../etc/passwd.txt"` existing on disk, `validate_file` returns
`valid = true` — the security patterns are matched only against the
basename of the stored path and the declared filename argument is never
inspected, although the declared filename does contain the
parent-directory traversal token. -/
theorem validate_traversal_filename_accepted :
    strContains (strToLower "../../etc/passwd.txt") ".." = true
    ∧ (validate_file fsTraversal "../../etc/passwd.txt"
        (some "../../etc/passwd.txt")).valid = true :=
  ⟨rfl, rfl⟩

/-- C4: neither public operation propagates an exception: every run of
`convert_file` and of `validate_file` ends in a tagged result — the body's
value when the body does not raise, and the generic tagged error result
when it does. -/
theorem core_ops_return_tagged_results :
    (∀ (caps : Caps)
        (env : Helper → String → String → CFS → (Except String Bool) × CFS)
        (fs : CFS) (input_path output_path target_format : String),
      (∃ r fs1, convertBody caps env fs input_path output_path target_format
          = (Except.ok r, fs1)
        ∧ convert_file caps env fs input_path output_path target_format = (r, fs1))
      ∨ (∃ e fs1, convertBody caps env fs input_path output_path target_format
          = (Except.error e, fs1)
        ∧ convert_file caps env fs input_path output_path target_format
          = (ConvResult.failure ("Conversion error: " ++ e), fs1)))
    ∧ (∀ (fs : VFS) (file_path : String) (orig : Option String),
      (∃ r, validateBody fs file_path = Except.ok r
        ∧ validate_file fs file_path orig = r)
      ∨ (∃ e, validateBody fs file_path = Except.error e
        ∧ validate_file fs file_path orig
          = mkInvalid "Validation error"
              ("An error occurred during file validation: " ++ e))) := by
  constructor
  · intro caps env fs input_path output_path target_format
    rcases hb : convertBody caps env fs input_path output_path target_format with ⟨res, fs1⟩
    cases res with
    | ok r => exact Or.inl ⟨r, fs1, rfl, by simp [convert_file, hb]⟩
    | error e => exact Or.inr ⟨e, fs1, rfl, by simp [convert_file, hb]⟩
  · intro fs file_path orig
    cases hb : validateBody fs file_path with
    | ok r => exact Or.inl ⟨r, rfl, validate_file_of_ok hb⟩
    | error e => exact Or.inr ⟨e, rfl, validate_file_of_error hb⟩

/-- C5 counterexample: for an existing, allow-listed file of 1 TiB the
first failing check is the size check, yet the reported reason is
"Validation error", not the size check's "File too large". -/
theorem validate_first_fail_reason_cex :
    vfsExists fsHuge "upload/huge.txt" = true
    ∧ allowedExtensions.contains (extOf "upload/huge.txt") = true
    ∧ maxSizeForFormat (extOf "upload/huge.txt") < vfsSize fsHuge "upload/huge.txt"
    ∧ (validate_file fsHuge "upload/huge.txt" none).error = some "Validation error"
    ∧ (validate_file fsHuge "upload/huge.txt" none).error ≠ some "File too large" := by
  exact ⟨rfl, rfl, by decide, rfl, by decide⟩

/-- Companion to `validateBody_too_large_raise`: a raise while formatting
the allowed size also propagates. -/
theorem validateBody_too_large_raise2 {fs : VFS} {p : String} {s1 e : String}
    (hex : vfsExists fs p = true)
    (hal : allowedExtensions.contains (extOf p) = true)
    (hlt : maxSizeForFormat (extOf p) < vfsSize fs p)
    (h1 : format_size (vfsSize fs p) = Except.ok s1)
    (h2 : format_size (maxSizeForFormat (extOf p)) = Except.error e) :
    validateBody fs p = Except.error e := by
  have hal2 : extOf p ∈ allowedExtensions := by simpa using hal
  simp [validateBody, hex, hal2, hlt, h1, h2, Except.map, Bind.bind, Except.bind]

/-- C5 (amended): `validate_file` runs its checks in the order
existence → extension allow-list → size → security, and the first failing
check short-circuits to `valid = false`; the failing check's own reason is
reported whenever the size strings format without raising (the reason
degrades to "Validation error" when they raise, see the 1 TiB
counterexample); and `valid = true` implies the extension is allow-listed,
the size is within the category ceiling, and the security check passed. -/
theorem validate_check_order (fs : VFS) (p : String) (orig : Option String) :
    (vfsExists fs p = false →
      validate_file fs p orig = mkInvalid "File does not exist"
        "The uploaded file could not be found on the server.")
    ∧ (vfsExists fs p = true → allowedExtensions.contains (extOf p) = false →
      validate_file fs p orig = mkInvalid "Unsupported file format"
        ("File format ." ++ extOf p ++ " is not supported. Supported formats: "
          ++ supportedFormatsMsg))
    ∧ (∀ s1 s2, vfsExists fs p = true → allowedExtensions.contains (extOf p) = true →
      maxSizeForFormat (extOf p) < vfsSize fs p →
      format_size (vfsSize fs p) = Except.ok s1 →
      format_size (maxSizeForFormat (extOf p)) = Except.ok s2 →
      validate_file fs p orig = mkInvalid "File too large"
        ("File size (" ++ s1 ++ ") exceeds maximum allowed size (" ++ s2 ++ ")"))
    ∧ (vfsExists fs p = true → allowedExtensions.contains (extOf p) = true →
      vfsSize fs p ≤ maxSizeForFormat (extOf p) →
      (validate_security p).valid = false →
      validate_file fs p orig = validate_security p)
    ∧ ((validate_file fs p orig).valid = true →
      vfsExists fs p = true ∧ allowedExtensions.contains (extOf p) = true
        ∧ vfsSize fs p ≤ maxSizeForFormat (extOf p)
        ∧ (validate_security p).valid = true) := by
  refine ⟨?_, ?_, ?_, ?_, ?_⟩
  · intro h
    exact validate_file_of_ok (validateBody_not_exists h)
  · intro hex hal
    exact validate_file_of_ok (validateBody_bad_ext hex hal)
  · intro s1 s2 hex hal hlt h1 h2
    exact validate_file_of_ok (validateBody_too_large hex hal hlt h1 h2)
  · intro hex hal hle hsec
    exact validate_file_of_ok (validateBody_security hex hal hle hsec)
  · intro hv
    by_cases hex : vfsExists fs p = true
    · by_cases hal : allowedExtensions.contains (extOf p) = true
      · by_cases hlt : maxSizeForFormat (extOf p) < vfsSize fs p
        · exfalso
          cases h1 : format_size (vfsSize fs p) with
          | error e =>
            rw [validate_file_of_error (validateBody_too_large_raise hex hal hlt h1)] at hv
            simp [mkInvalid] at hv
          | ok s1 =>
            cases h2 : format_size (maxSizeForFormat (extOf p)) with
            | error e =>
              rw [validate_file_of_error (validateBody_too_large_raise2 hex hal hlt h1 h2)] at hv
              simp [mkInvalid] at hv
            | ok s2 =>
              rw [validate_file_of_ok (validateBody_too_large hex hal hlt h1 h2)] at hv
              simp [mkInvalid] at hv
        · by_cases hsec : (validate_security p).valid = true
          · exact ⟨hex, hal, Nat.not_lt.1 hlt, hsec⟩
          · exfalso
            have hsecf : (validate_security p).valid = false :=
              Bool.not_eq_true _ ▸ Bool.eq_false_iff.2 hsec
            rw [validate_file_of_ok (validateBody_security hex hal (Nat.not_lt.1 hlt) hsecf)] at hv
            rw [hv] at hsecf
            simp at hsecf
      · exfalso
        have half : allowedExtensions.contains (extOf p) = false :=
          Bool.eq_false_iff.2 hal
        rw [validate_file_of_ok (validateBody_bad_ext hex half)] at hv
        simp [mkInvalid] at hv
    · exfalso
      have hexf : vfsExists fs p = false := Bool.eq_false_iff.2 hex
      rw [validate_file_of_ok (validateBody_not_exists hexf)] at hv
      simp [mkInvalid] at hv

/-- Witness for C5's amended claim: a code file one byte over its 10 MB
ceiling fails with the size check's reason; a missing file fails with the
existence check's reason. -/
theorem validate_check_order_case :
    validate_file fsPyOver "upload/big.py" none
      = mkInvalid "File too large"
          "File size (10.0 MB) exceeds maximum allowed size (10.0 MB)"
    ∧ validate_file [] "missing.txt" none
      = mkInvalid "File does not exist"
          "The uploaded file could not be found on the server." := by
  constructor
  · exact (validate_check_order fsPyOver "upload/big.py" none).2.2.1
      "10.0 MB" "10.0 MB" rfl rfl (by decide) rfl rfl
  · exact (validate_check_order [] "missing.txt" none).1 rfl

/-- C6: a file exactly at its category ceiling validates; one byte over
fails with "File too large", the details carrying both sizes as formatted
by `_format_size` (base-1024 unit from `size_names`, value rounded to two
decimal places). -/
theorem validate_size_boundary (fs : VFS) (p : String) (orig : Option String)
    (hex : vfsExists fs p = true)
    (hal : allowedExtensions.contains (extOf p) = true)
    (hsec : (validate_security p).valid = true) :
    (vfsSize fs p = maxSizeForFormat (extOf p) → (validate_file fs p orig).valid = true)
    ∧ (vfsSize fs p = maxSizeForFormat (extOf p) + 1 →
      ∃ s1 s2, format_size (vfsSize fs p) = Except.ok s1
        ∧ format_size (maxSizeForFormat (extOf p)) = Except.ok s2
        ∧ validate_file fs p orig = mkInvalid "File too large"
            ("File size (" ++ s1 ++ ") exceeds maximum allowed size (" ++ s2 ++ ")")) := by
  constructor
  · intro heq
    have hle : vfsSize fs p ≤ maxSizeForFormat (extOf p) := Nat.le_of_eq heq
    obtain ⟨s1, h1⟩ : ∃ s, format_size (vfsSize fs p) = Except.ok s :=
      format_size_ok (heq ▸ maxSizeForFormat_lt_tib (extOf p))
    obtain ⟨s2, h2⟩ : ∃ s, format_size (maxSizeForFormat (extOf p)) = Except.ok s :=
      format_size_ok (maxSizeForFormat_lt_tib (extOf p))
    rw [validate_file_of_ok (validateBody_success hex hal hle hsec h1 h2)]
    rfl
  · intro heq
    have hlt : maxSizeForFormat (extOf p) < vfsSize fs p := by omega
    have hsmall : vfsSize fs p < 1024 ^ 4 := by
      have := maxSizeForFormat_le (extOf p)
      omega
    obtain ⟨s1, h1⟩ : ∃ s, format_size (vfsSize fs p) = Except.ok s :=
      format_size_ok hsmall
    obtain ⟨s2, h2⟩ : ∃ s, format_size (maxSizeForFormat (extOf p)) = Except.ok s :=
      format_size_ok (maxSizeForFormat_lt_tib (extOf p))
    exact ⟨s1, s2, h1, h2,
      validate_file_of_ok (validateBody_too_large hex hal hlt h1 h2)⟩

/-- Witness for C6: a text file of exactly 200 MB validates; 200 MB plus
one byte is rejected as too large. -/
theorem validate_size_boundary_case :
    (validate_file fsAtCeiling "upload/doc.txt" none).valid = true
    ∧ (validate_file fsOverCeiling "upload/doc.txt" none).error = some "File too large" := by
  constructor
  · exact (validate_size_boundary fsAtCeiling "upload/doc.txt" none rfl rfl rfl).1 rfl
  · obtain ⟨s1, s2, h1, h2, h⟩ :=
      (validate_size_boundary fsOverCeiling "upload/doc.txt" none rfl rfl rfl).2 rfl
    rw [h]
    rfl

/-- C7: converting the CSV file with header `a,b` and data row `1,2` to
JSON yields the document `[{"a":"1","b":"2"}]` (field values as strings),
and converting that JSON file back to CSV yields a file whose header row
is `a,b` and whose single data row is `1,2`. -/
theorem csv_json_csv_roundtrip :
    convert_file capsAll envNone fsCsvRound "upload/in.csv" "conv/mid.json" "json"
      = (ConvResult.success "conv/mid.json",
         cfsWrite "conv/mid.json" (FileContent.jdoc (JVal.arr
           [JVal.obj [("a", JVal.str "1"), ("b", JVal.str "2")]])) fsCsvRound)
    ∧ convert_file capsAll envNone
        (cfsWrite "conv/mid.json" (FileContent.jdoc (JVal.arr
          [JVal.obj [("a", JVal.str "1"), ("b", JVal.str "2")]])) fsCsvRound)
        "conv/mid.json" "conv/out.csv" "csv"
      = (ConvResult.success "conv/out.csv",
         cfsWrite "conv/out.csv" (FileContent.text "a,b\r\n1,2\r\n")
           (cfsWrite "conv/mid.json" (FileContent.jdoc (JVal.arr
             [JVal.obj [("a", JVal.str "1"), ("b", JVal.str "2")]])) fsCsvRound)) :=
  ⟨rfl, rfl⟩

/-- C8: PDF to text output is the concatenation of the extracted text of
all pages in page order, consecutive pages separated by one blank line
(the `"\n\n"` separator). -/
theorem convert_pdf_to_text_all_pages (caps : Caps)
    (env : Helper → String → String → CFS → (Except String Bool) × CFS)
    (fs : CFS) (input_path output_path : String) (pages : List String)
    (hc : caps.pymupdf = true)
    (hext : extOf input_path = "pdf")
    (hin : cfsRead fs input_path = some (FileContent.pdf pages)) :
    convert_file caps env fs input_path output_path "txt"
      = (ConvResult.success output_path,
         cfsWrite output_path
           (FileContent.text (String.intercalate "\n\n" pages)) fs) := by
  have hex : cfsExists fs input_path = true := by simp [cfsExists, hin]
  have hdisp : dispatch (extOf input_path) (strToLower "txt") = some Helper.pdfToText := by
    rw [hext]; rfl
  rw [← pdfConcat_eq_intercalate]
  simp [convert_file, convertBody, hex, hdisp, runHelper, convert_pdf_to_text, hc, hin]

/-- Witness for C8: a two-page PDF becomes the two page texts joined by a
blank line. -/
theorem convert_pdf_to_text_all_pages_case :
    convert_file capsAll envNone [("u/doc.pdf", FileContent.pdf ["page one", "page two"])]
        "u/doc.pdf" "c/doc.txt" "txt"
      = (ConvResult.success "c/doc.txt",
         cfsWrite "c/doc.txt" (FileContent.text "page one\n\npage two")
           [("u/doc.pdf", FileContent.pdf ["page one", "page two"])]) := by
  have h := convert_pdf_to_text_all_pages capsAll envNone
    [("u/doc.pdf", FileContent.pdf ["page one", "page two"])]
    "u/doc.pdf" "c/doc.txt" ["page one", "page two"] rfl rfl rfl
  exact h

/-- C9: a single sweep deletes exactly the accessible, deletable files
older than the retention threshold, counting each deletion; fresher files
and files whose stat or delete fails are left in place (a per-file error
does not abort the cycle, as the remaining files are still filtered); and
an immediate second sweep over the resulting state deletes zero files. -/
theorem cleanup_now_spec (now retention : Int) (folders : List SwFolder) :
    (cleanup_now now retention folders).1
      = (folders.map (fun fo => if fo.present
          then fo.files.countP (fun f => f.statOk && fileExpired now retention f && f.delOk)
          else 0)).sum
    ∧ (cleanup_now now retention folders).2
      = folders.map (fun fo => if fo.present
          then ⟨fo.present, fo.files.filter
            (fun f => !(f.statOk && fileExpired now retention f && f.delOk))⟩
          else fo)
    ∧ (cleanup_now now retention (cleanup_now now retention folders).2).1 = 0 := by
  have base : ∀ fl : List SwFolder,
      (cleanup_now now retention fl).1
        = (fl.map (fun fo => if fo.present
            then fo.files.countP (fun f => f.statOk && fileExpired now retention f && f.delOk)
            else 0)).sum
      ∧ (cleanup_now now retention fl).2
        = fl.map (fun fo => if fo.present
            then ⟨fo.present, fo.files.filter
              (fun f => !(f.statOk && fileExpired now retention f && f.delOk))⟩
            else fo) := by
    intro fl
    induction fl with
    | nil => simp [cleanup_now]
    | cons fo rest ih =>
      constructor
      · simp [cleanup_now, sweepFolder_eq, ih.1]
      · simp [cleanup_now, sweepFolder_eq, ih.2]
  refine ⟨(base folders).1, (base folders).2, ?_⟩
  rw [(base _).1, (base folders).2]
  rw [List.map_map]
  apply List.sum_eq_zero
  intro x hx
  rw [List.mem_map] at hx
  obtain ⟨fo, _, rfl⟩ := hx
  by_cases hp : fo.present
  · simp only [Function.comp, hp, if_pos, if_true]
    apply List.countP_eq_zero.2
    intro f hf
    rw [List.mem_filter] at hf
    have h2 : (f.statOk && fileExpired now retention f && f.delOk) = false :=
      (Bool.not_eq_true' _) ▸ hf.2
    simp [h2]
  · simp [Function.comp, hp]

/-- C10: any file of at least 1 TiB fails validation with the generic
"Validation error" reason (not "File too large"): the size check fails,
`_format_size` finds no unit for index 4 and raises `IndexError`, and the
outer handler of `validate_file` converts the raise into the tagged error
outcome — `validate_file` itself does not raise. -/
theorem validate_huge_validation_error (fs : VFS) (p : String) (orig : Option String)
    (hex : vfsExists fs p = true)
    (hal : allowedExtensions.contains (extOf p) = true)
    (hsz : 1024 ^ 4 ≤ vfsSize fs p) :
    validate_file fs p orig
      = mkInvalid "Validation error"
          "An error occurred during file validation: list index out of range" := by
  have hlt : maxSizeForFormat (extOf p) < vfsSize fs p :=
    Nat.lt_of_lt_of_le (maxSizeForFormat_lt_tib (extOf p)) hsz
  have h1 : format_size (vfsSize fs p) = Except.error "list index out of range" :=
    format_size_huge hsz
  exact validate_file_of_error (validateBody_too_large_raise hex hal hlt h1)

/-- Witness for C10 at exactly 1 TiB. -/
theorem validate_huge_validation_error_case :
    validate_file fsHuge "upload/huge.txt" none
      = mkInvalid "Validation error"
          "An error occurred during file validation: list index out of range" :=
  validate_huge_validation_error fsHuge "upload/huge.txt" none rfl rfl (by decide)
